import Mathlib

/-!
Shallow embedding of the multicast core of `src/Rx/v2/src/rxcpp/subjects/rx-subject.hpp`
(the `multicast_observer` state machine), together with a model of the
virtual-time `skip_until` scenario exercised by `src/Rx/v2/test/operators/skip_until.cpp`.

Observers are identified by natural numbers.  Whether an observer's own
subscription lifetime is currently subscribed is supplied to each operation as
an environment `subs : Nat → Bool` (the lifetime is external state that can
change between operations).  The element type of the stream is `V`, and the
opaque error carrier (`std::exception_ptr`) is modelled as `Option E`
(`none` being the null pointer).  The side effects of an operation — calls to
downstream observer methods and the final lifetime unsubscription — are
returned as an ordered list of `Event`s.
-/

namespace RxSubject

/-- The `mode::type` enum of the source: the termination status of the subject. -/
inductive mode where
  | Invalid
  | Casting
  | Completed
  | Errored
deriving DecidableEq, Repr

/-- The `state_type` struct: generation counter, current mode, stored error and
the shared composite lifetime (modelled as the boolean `is_subscribed` state of
that lifetime).  The mutex is not represented: the embedding is sequential and
each operation is one atomic step, exactly the serialization the lock provides.
The source stores the generation in a `std::atomic<int>` whose increment wraps
on overflow; the embedding records the counter as a `Nat`, and no theorem below
asserts a property (such as cross-execution monotonicity) that would depend on
the counter not wrapping — each operation's effect on it is stated as exactly
one increment or exactly no change. -/
structure state_type (E : Type) where
  generation : Nat
  current : mode
  error : Option E
  lifetime : Bool
deriving DecidableEq, Repr

/-- The `completer_type` struct: an immutable snapshot of the attached
subscribers.  The backreference to `state_type` is ownership plumbing with no
behavioural content and is omitted. -/
structure completer_type where
  observers : List Nat
deriving DecidableEq, Repr

/-- The `binder_type` struct: the shared state, the hot-path generation and
snapshot pointer (read without the lock in `on_next`), and the canonical
snapshot pointer (accessed only under the lock).  The `trace_id` field is
tracing-only and omitted. -/
structure binder_type (E : Type) where
  state : state_type E
  current_generation : Nat
  current_completer : Option completer_type
  completer : Option completer_type
deriving DecidableEq, Repr

/-- Observable side effects of one operation: downstream observer calls in the
order the source performs them, plus the unsubscription of the shared lifetime. -/
inductive Event (V E : Type) where
  | on_next (o : Nat) (v : V)
  | on_error (o : Nat) (e : Option E)
  | on_completed (o : Nat)
  | unsubscribe_lifetime
deriving DecidableEq, Repr

/-- The `multicast_observer` / `binder_type` constructor: fresh state with
generation 0, mode Casting, null error, the caller-provided lifetime, hot
generation 0 and both snapshot pointers null. -/
def initial_binder (E : Type) (ls : Bool) : binder_type E :=
  { state := { generation := 0, current := mode.Casting, error := none, lifetime := ls },
    current_generation := 0,
    current_completer := none,
    completer := none }

/-- `multicast_observer::has_observers`: under the lock, true iff
`b->current_completer` is non-null and its observer list is non-empty. -/
def has_observers {E : Type} (b : binder_type E) : Bool :=
  match b.current_completer with
  | none => false
  | some c => !c.observers.isEmpty

/-- The observer list of the snapshot built by the `completer_type` constructor:
the still-subscribed observers of the old snapshot (empty when the old snapshot
pointer is null), in order, with the new observer appended. -/
def new_completer_observers (subs : Nat → Bool) (old : Option completer_type) (o : Nat) :
    List Nat :=
  ((old.map completer_type.observers).getD []).filter subs ++ [o]

/-- `multicast_observer::add`: branch on the current mode under the lock.
Casting admits a subscribed observer by publishing a fresh snapshot and
incrementing the generation (an unsubscribed observer is ignored); Completed
replays `on_completed` to the late observer outside the lock; Errored replays
the stored error; the default branch calls `abort()`, modelled as `none`. -/
def add {V E : Type} (subs : Nat → Bool) (b : binder_type E) (o : Nat) :
    Option (binder_type E × List (Event V E)) :=
  match b.state.current with
  | mode.Casting =>
      if subs o then
        some ({ b with
                  completer := some ⟨new_completer_observers subs b.completer o⟩,
                  state := { b.state with generation := b.state.generation + 1 } }, [])
      else
        some (b, [])
  | mode.Completed => some (b, [Event.on_completed o])
  | mode.Errored => some (b, [Event.on_error o b.state.error])
  | mode.Invalid => none

/-- `multicast_observer::on_next`: if the hot generation differs from the
state's generation, refresh the hot snapshot pointer from the canonical one and
update the hot generation; then, if the hot snapshot is null or empty, return
delivering nothing; otherwise deliver `v` to each still-subscribed observer of
the hot snapshot, in snapshot order. -/
def on_next {V E : Type} (subs : Nat → Bool) (b : binder_type E) (v : V) :
    binder_type E × List (Event V E) :=
  let b1 :=
    if b.current_generation ≠ b.state.generation then
      { b with current_generation := b.state.generation, current_completer := b.completer }
    else
      b
  match b1.current_completer with
  | none => (b1, [])
  | some c =>
      if c.observers.isEmpty then
        (b1, [])
      else
        (b1, c.observers.filterMap (fun o => if subs o then some (Event.on_next o v) else none))

/-- `multicast_observer::on_error`: only in Casting mode, store the error, set
mode Errored, capture the canonical snapshot and the shared lifetime, clear the
hot-path and canonical snapshot pointers, increment the generation; then (lock
released) deliver the error to each still-subscribed observer of the captured
snapshot and finally unsubscribe the captured lifetime.  In any other mode this
is a no-op. -/
def on_error {V E : Type} (subs : Nat → Bool) (b : binder_type E) (e : Option E) :
    binder_type E × List (Event V E) :=
  if b.state.current = mode.Casting then
    let c := b.completer
    let b' : binder_type E :=
      { state := { generation := b.state.generation + 1, current := mode.Errored,
                   error := e, lifetime := false },
        current_generation := b.current_generation,
        current_completer := none,
        completer := none }
    let notif : List (Event V E) :=
      match c with
      | none => []
      | some cc => cc.observers.filterMap
          (fun o => if subs o then some (Event.on_error o e) else none)
    (b', notif ++ [Event.unsubscribe_lifetime])
  else
    (b, [])

/-- `multicast_observer::on_completed`: symmetric to `on_error` with mode
Completed, delivery of `on_completed`, and no stored error. -/
def on_completed {V E : Type} (subs : Nat → Bool) (b : binder_type E) :
    binder_type E × List (Event V E) :=
  if b.state.current = mode.Casting then
    let c := b.completer
    let b' : binder_type E :=
      { state := { generation := b.state.generation + 1, current := mode.Completed,
                   error := b.state.error, lifetime := false },
        current_generation := b.current_generation,
        current_completer := none,
        completer := none }
    let notif : List (Event V E) :=
      match c with
      | none => []
      | some cc => cc.observers.filterMap
          (fun o => if subs o then some (Event.on_completed o) else none)
    (b', notif ++ [Event.unsubscribe_lifetime])
  else
    (b, [])

/-- One external call to the dispatcher, carrying the subscription environment
in force at the moment of the call. -/
inductive Op (V E : Type) where
  | add (subs : Nat → Bool) (o : Nat)
  | on_next (subs : Nat → Bool) (v : V)
  | on_error (subs : Nat → Bool) (e : Option E)
  | on_completed (subs : Nat → Bool)

/-- Execute one call on a binder; `none` exactly when `add` reaches `abort()`. -/
def step {V E : Type} (b : binder_type E) : Op V E → Option (binder_type E × List (Event V E))
  | Op.add subs o => add subs b o
  | Op.on_next subs v => some (on_next subs b v)
  | Op.on_error subs e => some (on_error subs b e)
  | Op.on_completed subs => some (on_completed subs b)

/-- Execute a sequence of calls; `none` iff some call aborts. -/
def run {V E : Type} (b : binder_type E) : List (Op V E) → Option (binder_type E)
  | [] => some b
  | op :: ops =>
      match step b op with
      | none => none
      | some r => run r.1 ops

/-!
Modelled from the spec: the `skip_until` operator and the virtual-time test
harness (test scheduler, hot observables, recorded messages and subscription
intervals) are not part of the sources under verification — only the test file
`src/Rx/v2/test/operators/skip_until.cpp` is.  The definitions below model
them from the specification's §6 (test-harness interface) and §8 (scenarios):
a hot observable is a scripted list of timestamped messages; a subscriber
attached at time `subAt` sees the messages with later timestamps; `skip_until`
drops source values until the trigger first emits a value (which also ends the
trigger subscription), forwards source values and completion once the gate is
open, and forwards an error from either side immediately, ending both
subscriptions; streams still subscribed at the horizon are unsubscribed there.
-/

/-- A timestamped message of a scripted hot observable (modelled from the spec's
test-harness interface).  The error payload is irrelevant to the scenario
verified here and is omitted. -/
inductive Msg (V : Type) where
  | next (v : V)
  | error
  | completed
deriving DecidableEq, Repr

/-- Which of the two input streams an event came from. -/
inductive Src where
  | L
  | R
deriving DecidableEq, Repr

/-- Merge two time-sorted scripted streams into one chronological event list,
tagging each event with its source; at equal times the left stream goes first.
The fuel argument (any value at least the total number of events) makes the
recursion structural. -/
def mergeTimedF {V : Type} :
    Nat → List (Nat × Msg V) → List (Nat × Msg V) → List (Src × Nat × Msg V)
  | 0, _, _ => []
  | _ + 1, [], rs => rs.map (fun e => (Src.R, e.1, e.2))
  | _ + 1, ls, [] => ls.map (fun e => (Src.L, e.1, e.2))
  | n + 1, a :: ls, c :: rs =>
      if a.1 ≤ c.1 then
        (Src.L, a.1, a.2) :: mergeTimedF n ls (c :: rs)
      else
        (Src.R, c.1, c.2) :: mergeTimedF n (a :: ls) rs

/-- Merge two time-sorted scripted streams, supplying adequate fuel. -/
def mergeTimed {V : Type} (ls rs : List (Nat × Msg V)) : List (Src × Nat × Msg V) :=
  mergeTimedF (ls.length + rs.length) ls rs

/-- State of the modelled `skip_until` pipeline: whether the gate has opened,
the unsubscription times of the two input streams (set once), the recorded
output messages, and whether the result stream has terminated. -/
structure sim_state (V : Type) where
  gateOpen : Bool
  lEnd : Option Nat
  rEnd : Option Nat
  out : List (Nat × Msg V)
  resDone : Bool
deriving DecidableEq, Repr

/-- Modelled from the spec: process one timestamped event through the
`skip_until` pipeline.  A trigger value opens the gate and ends the trigger
subscription; trigger completion ends the trigger subscription silently; a
trigger error is forwarded and terminates everything.  A source value is
forwarded only when the gate is open; source completion ends the source
subscription and is forwarded only when the gate is open; a source error is
forwarded and terminates everything. -/
def sim_step {V : Type} (s : sim_state V) : Src × Nat × Msg V → sim_state V
  | (Src.L, t, m) =>
      if s.resDone then s
      else if s.lEnd.isSome then s
      else
        match m with
        | Msg.next v =>
            if s.gateOpen then { s with out := s.out ++ [(t, Msg.next v)] } else s
        | Msg.completed =>
            if s.gateOpen then
              { s with lEnd := some t, rEnd := some (s.rEnd.getD t),
                       out := s.out ++ [(t, Msg.completed)], resDone := true }
            else
              { s with lEnd := some t }
        | Msg.error =>
            { s with lEnd := some t, rEnd := some (s.rEnd.getD t),
                     out := s.out ++ [(t, Msg.error)], resDone := true }
  | (Src.R, t, m) =>
      if s.resDone then s
      else if s.rEnd.isSome then s
      else
        match m with
        | Msg.next _ => { s with gateOpen := true, rEnd := some t }
        | Msg.completed => { s with rEnd := some t }
        | Msg.error =>
            { s with rEnd := some t, lEnd := some (s.lEnd.getD t),
                     out := s.out ++ [(t, Msg.error)], resDone := true }

/-- Result of one virtual-time run: the recorded output messages and the
subscription intervals of the source and the trigger. -/
structure sim_result (V : Type) where
  out : List (Nat × Msg V)
  lsub : Nat × Nat
  rsub : Nat × Nat
deriving DecidableEq, Repr

/-- Modelled from the spec: run `skip_until(l, r)` under the virtual-time test
scheduler, subscribing at `subAt` and disposing at `horizon`.  Scripted events
before the subscription time are not seen (hot observables); streams still
subscribed after the last event are unsubscribed at the horizon. -/
def skip_until_sim {V : Type} (l r : List (Nat × Msg V)) (subAt horizon : Nat) :
    sim_result V :=
  let evs := mergeTimed (l.filter (fun e => subAt ≤ e.1)) (r.filter (fun e => subAt ≤ e.1))
  let s := List.foldl sim_step
    { gateOpen := false, lEnd := none, rEnd := none, out := [], resDone := false } evs
  { out := s.out, lsub := (subAt, s.lEnd.getD horizon), rsub := (subAt, s.rEnd.getD horizon) }

/-- The scripted source stream of the gate-then-pass scenario. -/
def gate_then_pass_l : List (Nat × Msg Nat) :=
  [(150, Msg.next 1), (210, Msg.next 2), (220, Msg.next 3), (230, Msg.next 4),
   (240, Msg.next 5), (250, Msg.completed)]

/-- The scripted trigger stream of the gate-then-pass scenario. -/
def gate_then_pass_r : List (Nat × Msg Nat) :=
  [(150, Msg.next 1), (225, Msg.next 99), (230, Msg.completed)]

/-! Concrete fixtures used to instantiate the theorems below. -/

/-- A subscription environment in which observer 0 has unsubscribed and every
other observer is still subscribed. -/
def subsPos : Nat → Bool := fun o => decide (0 < o)

/-- A Casting-mode binder with canonical snapshot `[0, 1]`, generation 2, and a
stale hot-path pointer (hot generation 0, hot snapshot null). -/
def bQ : binder_type Nat :=
  { state := { generation := 2, current := mode.Casting, error := none, lifetime := true },
    current_generation := 0,
    current_completer := none,
    completer := some ⟨[0, 1]⟩ }

/-- The binder obtained from `bQ` by admitting observer 2 under `subsPos`. -/
def bQadd : binder_type Nat :=
  { state := { generation := 3, current := mode.Casting, error := none, lifetime := true },
    current_generation := 0,
    current_completer := none,
    completer := some ⟨[1, 2]⟩ }

/-- A Completed-mode binder, as left behind by a termination. -/
def bDone : binder_type Nat :=
  { state := { generation := 5, current := mode.Completed, error := none, lifetime := false },
    current_generation := 5,
    current_completer := none,
    completer := none }

/-- The binder obtained from `bQ` by one `on_next`, which refreshes the stale
hot-path pointer from the canonical snapshot. -/
def bQnext : binder_type Nat :=
  { state := { generation := 2, current := mode.Casting, error := none, lifetime := true },
    current_generation := 2,
    current_completer := some ⟨[0, 1]⟩,
    completer := some ⟨[0, 1]⟩ }

/-- The binder obtained from the fresh binder by one `on_completed`. -/
def bTerm : binder_type Nat :=
  { state := { generation := 1, current := mode.Completed, error := none, lifetime := false },
    current_generation := 0,
    current_completer := none,
    completer := none }

/-- The binder obtained from `bQ` by `on_error` with stored error `some 5`. -/
def bQerr : binder_type Nat :=
  { state := { generation := 3, current := mode.Errored, error := some 5, lifetime := false },
    current_generation := 0,
    current_completer := none,
    completer := none }

/-! Helper lemmas shared by the claim theorems. -/

theorem add_preserves_mode {V E : Type} {subs : Nat → Bool} {b : binder_type E} {o : Nat}
    {b' : binder_type E} {evs : List (Event V E)} (h : add subs b o = some (b', evs)) :
    b'.state.current = b.state.current := by
  cases hm : b.state.current <;> simp [add, hm] at h
  case Casting =>
    by_cases hs : subs o <;> simp [hs] at h <;> obtain ⟨rfl, rfl⟩ := h <;> simp [hm]
  case Completed => obtain ⟨rfl, rfl⟩ := h; simp [hm]
  case Errored => obtain ⟨rfl, rfl⟩ := h; simp [hm]

theorem add_preserves_current_completer {V E : Type} {subs : Nat → Bool} {b : binder_type E}
    {o : Nat} {b' : binder_type E} {evs : List (Event V E)}
    (h : add subs b o = some (b', evs)) :
    b'.current_completer = b.current_completer := by
  cases hm : b.state.current <;> simp [add, hm] at h
  case Casting =>
    by_cases hs : subs o <;> simp [hs] at h <;> obtain ⟨rfl, rfl⟩ := h <;> rfl
  case Completed => obtain ⟨rfl, rfl⟩ := h; rfl
  case Errored => obtain ⟨rfl, rfl⟩ := h; rfl

theorem on_next_fst {V E : Type} (subs : Nat → Bool) (b : binder_type E) (v : V) :
    (on_next subs b v).1 =
      if b.current_generation ≠ b.state.generation then
        { b with current_generation := b.state.generation, current_completer := b.completer }
      else
        b := by
  unfold on_next
  by_cases hg : b.current_generation = b.state.generation
  · simp only [ne_eq, hg, not_true_eq_false, if_false]
    cases hc : b.current_completer with
    | none => rfl
    | some c => by_cases he : c.observers.isEmpty <;> simp [he]
  · simp only [ne_eq, hg, not_false_eq_true, if_true]
    cases hc : b.completer with
    | none => rfl
    | some c => by_cases he : c.observers.isEmpty <;> simp [he]

theorem on_next_state_eq {V E : Type} (subs : Nat → Bool) (b : binder_type E) (v : V) :
    (on_next subs b v).1.state = b.state := by
  rw [on_next_fst]
  split <;> rfl

/-- C9: in the gate-then-pass scenario (subscribe at 200, horizon 1000), with
source l emitting next(210,2), next(220,3), next(230,4), next(240,5),
completed(250) and trigger r emitting next(225,99), completed(230), the output
of skip_until(l, r) is exactly next(230,4), next(240,5), completed(250), the
subscription to l is [200,250] and the subscription to r is [200,225]. -/
theorem skip_until_gate_then_pass :
    skip_until_sim gate_then_pass_l gate_then_pass_r 200 1000 =
      { out := [(230, Msg.next 4), (240, Msg.next 5), (250, Msg.completed)],
        lsub := (200, 250), rsub := (200, 225) } := by
  decide

/-- C2: in Casting mode, admitting a subscribed observer publishes as the new
canonical snapshot exactly the previous canonical snapshot's still-subscribed
subscribers in their original order with the new observer appended (the empty
list when there was no previous snapshot), increments the generation counter,
delivers no notification, and leaves every other binder field unchanged.  The
previous snapshot is a pure value in this embedding and is not mutated: the new
snapshot is computed from it by `List.filter` and append. -/
theorem add_casting_publishes {V E : Type} (subs : Nat → Bool) (b : binder_type E)
    (o : Nat) (b' : binder_type E) (evs : List (Event V E))
    (h1 : b.state.current = mode.Casting) (h2 : subs o = true)
    (h : add subs b o = some (b', evs)) :
    evs = [] ∧
    b'.completer =
      some ⟨((b.completer.map completer_type.observers).getD []).filter subs ++ [o]⟩ ∧
    b'.state.generation = b.state.generation + 1 ∧
    b'.state.current = b.state.current ∧
    b'.state.error = b.state.error ∧
    b'.state.lifetime = b.state.lifetime ∧
    b'.current_completer = b.current_completer ∧
    b'.current_generation = b.current_generation := by
  simp [add, h1, h2, new_completer_observers] at h
  obtain ⟨rfl, rfl⟩ := h
  simp [h1]

/-- C2 witness: admitting observer 2 over the previous snapshot `[0, 1]` of
`bQ`, in which observer 0 has unsubscribed, publishes the snapshot `[1, 2]` and
bumps the generation from 2 to 3. -/
theorem add_casting_publishes_witness :
    bQ.state.current = mode.Casting ∧ subsPos 2 = true ∧
    bQadd.completer = some ⟨[1, 2]⟩ ∧ bQadd.state.generation = bQ.state.generation + 1 := by
  have h := add_casting_publishes (V := Nat) subsPos bQ 2 bQadd [] (by decide) (by decide)
    (by decide)
  exact ⟨by decide, by decide, by rw [h.2.1]; rfl, h.2.2.1⟩

/-- C3: an observer admitted after termination receives the terminal signal
synchronously and exactly once — `on_completed` in Completed mode, `on_error`
with exactly the stored error in Errored mode — and the binder (mode, stored
error, snapshots, generation) is unchanged. -/
theorem add_terminal_replays {V E : Type} (subs : Nat → Bool) (b : binder_type E) (o : Nat)
    (h : b.state.current = mode.Completed ∨ b.state.current = mode.Errored) :
    add subs b o =
      some (b, if b.state.current = mode.Completed then ([Event.on_completed o] : List (Event V E))
               else [Event.on_error o b.state.error]) := by
  rcases h with h | h <;> simp [add, h]

/-- C3 witness: a late admission into a Completed-mode binder replays
`on_completed` to the new observer and changes nothing. -/
theorem add_terminal_replays_witness :
    add (fun _ => true)
      ({ state := { generation := 5, current := mode.Completed, error := none, lifetime := false },
         current_generation := 5, current_completer := none,
         completer := none } : binder_type Nat) 7 =
      some ({ state := { generation := 5, current := mode.Completed, error := none,
                         lifetime := false },
              current_generation := 5, current_completer := none, completer := none },
            ([Event.on_completed 7] : List (Event Nat Nat))) := by
  have h := add_terminal_replays (V := Nat) (fun _ => true)
    ({ state := { generation := 5, current := mode.Completed, error := none, lifetime := false },
       current_generation := 5, current_completer := none,
       completer := none } : binder_type Nat) 7 (Or.inl rfl)
  simpa using h

/-- C8: in Casting mode, admitting an observer that is already unsubscribed is
ignored: no snapshot edit, no generation bump, no notification, the binder is
returned unchanged. -/
theorem add_unsubscribed_ignored {V E : Type} (subs : Nat → Bool) (b : binder_type E) (o : Nat)
    (h1 : b.state.current = mode.Casting) (h2 : subs o = false) :
    add subs b o = some (b, ([] : List (Event V E))) := by
  simp [add, h1, h2]

/-- C8 witness: admitting unsubscribed observer 0 into the fresh binder leaves
it untouched and notifies nobody. -/
theorem add_unsubscribed_ignored_witness :
    add (fun _ => false) (initial_binder Nat true) 0 =
      some (initial_binder Nat true, ([] : List (Event Nat Nat))) := by
  have h := add_unsubscribed_ignored (V := Nat) (fun _ => false) (initial_binder Nat true) 0
    rfl rfl
  exact h

/-- C1 counterexample: starting from `bQ` (Casting mode, stale hot-path
pointer), the completed admission of subscribed observer 2 leaves a canonical
snapshot `[1, 2]` that exists and is non-empty, yet `has_observers` returns
`false`, because the code reads the hot-path pointer `current_completer`,
which `add` never updates. -/
theorem has_observers_canonical_cex :
    (add subsPos bQ 2 : Option (binder_type Nat × List (Event Nat Nat))) = some (bQadd, []) ∧
    bQadd.completer = some ⟨[1, 2]⟩ ∧
    has_observers bQadd = false := by
  decide

/-- C1 (amended): `has_observers()` is a locked read of the hot-path snapshot
pointer: it returns true iff that pointer exists and is non-empty.  It is left
unchanged by any completed admission (`add` never writes the hot-path pointer),
so immediately after an admission it still reflects the hot-path snapshot from
before the admission, until an `on_next` refreshes that pointer. -/
theorem has_observers_hot_path {V E : Type} (subs : Nat → Bool) (b b' : binder_type E)
    (o : Nat) (evs : List (Event V E)) (h : add subs b o = some (b', evs)) :
    (has_observers b = true ↔ (b.current_completer.map completer_type.observers).getD [] ≠ []) ∧
    has_observers b' = has_observers b := by
  constructor
  · unfold has_observers
    cases b.current_completer with
    | none => simp
    | some c => cases hc : c.observers <;> simp [hc]
  · have hcc := add_preserves_current_completer h
    unfold has_observers
    rw [hcc]

/-- C1 witness: `bQ` has a null hot-path pointer, so `has_observers` is false
both before and after the admission of observer 2. -/
theorem has_observers_hot_path_witness :
    (has_observers bQ = true ↔
      (bQ.current_completer.map completer_type.observers).getD [] ≠ []) ∧
    has_observers bQadd = has_observers bQ := by
  exact has_observers_hot_path (V := Nat) subsPos bQ bQadd 2 [] (by decide)

theorem on_next_snd {V E : Type} (subs : Nat → Bool) (b : binder_type E) (v : V) :
    (on_next subs b v).2 =
      (((on_next subs b v).1.current_completer.map completer_type.observers).getD []).filterMap
        (fun o => if subs o then some (Event.on_next o v) else none) := by
  rw [on_next_fst]
  unfold on_next
  by_cases hg : b.current_generation = b.state.generation
  · simp only [ne_eq, hg, not_true_eq_false, if_false]
    cases hc : b.current_completer with
    | none => simp
    | some c =>
        cases ho : c.observers with
        | nil => simp [ho]
        | cons x xs => simp [ho]
  · simp only [ne_eq, hg, not_false_eq_true, if_true]
    cases hc : b.completer with
    | none => simp
    | some c =>
        cases ho : c.observers with
        | nil => simp [ho]
        | cons x xs => simp [ho]

/-- C5: `on_next(v)` refreshes the hot-path snapshot pointer from the canonical
snapshot exactly when the dispatcher-local hot generation differs from the
state's generation, setting the hot generation to the state's generation; it
then delivers `v` exactly to the still-subscribed subscribers of the (refreshed)
hot-path snapshot, in snapshot order — nothing when that snapshot is absent or
empty — and mutates neither the state nor the canonical snapshot. -/
theorem on_next_hot_path {V E : Type} (subs : Nat → Bool) (b : binder_type E) (v : V)
    (b' : binder_type E) (evs : List (Event V E)) (h : on_next subs b v = (b', evs)) :
    b'.state = b.state ∧
    b'.completer = b.completer ∧
    b'.current_generation = b.state.generation ∧
    b'.current_completer =
      (if b.current_generation = b.state.generation then b.current_completer else b.completer) ∧
    evs = ((b'.current_completer.map completer_type.observers).getD []).filterMap
            (fun o => if subs o then some (Event.on_next o v) else none) := by
  have h1 := on_next_fst subs b v
  have h2 := on_next_snd subs b v
  rw [h] at h1 h2
  replace h1 : b' = _ := h1
  replace h2 : evs = _ := h2
  by_cases hg : b.current_generation = b.state.generation
  · have hb : b' = b := by rw [h1, if_neg (not_not_intro hg)]
    subst hb
    exact ⟨rfl, rfl, hg, (if_pos hg).symm, h2⟩
  · have hb : b' =
        { b with current_generation := b.state.generation, current_completer := b.completer } := by
      rw [h1, if_pos hg]
    subst hb
    exact ⟨rfl, rfl, rfl, (if_neg hg).symm, h2⟩

/-- C5 witness: one `on_next` on `bQ` (stale hot generation 0 against state
generation 2) refreshes the hot snapshot to `[0, 1]` and delivers the value 9
only to the still-subscribed observer 1. -/
theorem on_next_hot_path_witness :
    bQnext.state = bQ.state ∧
    bQnext.completer = bQ.completer ∧
    bQnext.current_generation = bQ.state.generation ∧
    bQnext.current_completer =
      (if bQ.current_generation = bQ.state.generation then bQ.current_completer
       else bQ.completer) ∧
    ([Event.on_next 1 9] : List (Event Nat Nat)) =
      ((bQnext.current_completer.map completer_type.observers).getD []).filterMap
        (fun o => if subsPos o then some (Event.on_next o 9) else none) := by
  exact on_next_hot_path subsPos bQ 9 bQnext [Event.on_next 1 9] (by decide)

theorem unsub_not_mem_error_notifs {V E : Type} (subs : Nat → Bool) (e : Option E)
    (l : List Nat) :
    Event.unsubscribe_lifetime ∉
      l.filterMap (fun o => if subs o then some (Event.on_error (V := V) o e) else none) := by
  simp only [List.mem_filterMap, not_exists, not_and]
  intro o _
  split <;> simp

/-- C6: in Casting mode, `on_error(e)` leaves a state whose stored error is `e`
and whose mode is Errored (both published together under the lock), clears both
the hot-path and canonical snapshot pointers, increments the generation, then
delivers `on_error(e)` once to each still-subscribed entry of the snapshot
captured at the transition, in order, and finally unsubscribes the captured
shared lifetime — the single `unsubscribe_lifetime` effect of the call. -/
theorem on_error_casting_spec {V E : Type} (subs : Nat → Bool) (b : binder_type E)
    (e : Option E) (b' : binder_type E) (evs : List (Event V E))
    (h1 : b.state.current = mode.Casting) (h : on_error subs b e = (b', evs)) :
    b'.state.error = e ∧
    b'.state.current = mode.Errored ∧
    b'.state.generation = b.state.generation + 1 ∧
    b'.state.lifetime = false ∧
    b'.current_completer = none ∧
    b'.completer = none ∧
    b'.current_generation = b.current_generation ∧
    evs = (((b.completer.map completer_type.observers).getD []).filterMap
             (fun o => if subs o then some (Event.on_error o e) else none))
          ++ [Event.unsubscribe_lifetime] ∧
    Event.unsubscribe_lifetime ∉
      (((b.completer.map completer_type.observers).getD []).filterMap
        (fun o => if subs o then some (Event.on_error (V := V) o e) else none)) := by
  simp only [on_error, h1, if_true] at h
  cases hc : b.completer with
  | none =>
      rw [hc] at h
      injection h with hb he
      subst hb
      subst he
      exact ⟨rfl, rfl, rfl, rfl, rfl, rfl, rfl, by simp [hc],
        unsub_not_mem_error_notifs subs e _⟩
  | some c =>
      rw [hc] at h
      injection h with hb he
      subst hb
      subst he
      exact ⟨rfl, rfl, rfl, rfl, rfl, rfl, rfl, by simp [hc],
        unsub_not_mem_error_notifs subs e _⟩

/-- C6 witness: `on_error (some 5)` on `bQ` stores the error, terminates the
mode, notifies the still-subscribed observer 1 and then unsubscribes the shared
lifetime. -/
theorem on_error_casting_spec_witness :
    bQerr.state.error = some 5 ∧
    bQerr.state.current = mode.Errored ∧
    bQerr.state.generation = bQ.state.generation + 1 ∧
    bQerr.state.lifetime = false ∧
    bQerr.current_completer = none ∧
    bQerr.completer = none ∧
    bQerr.current_generation = bQ.current_generation ∧
    ([Event.on_error 1 (some 5), Event.unsubscribe_lifetime] : List (Event Nat Nat)) =
      (((bQ.completer.map completer_type.observers).getD []).filterMap
        (fun o => if subsPos o then some (Event.on_error o (some 5)) else none))
      ++ [Event.unsubscribe_lifetime] ∧
    Event.unsubscribe_lifetime ∉
      (((bQ.completer.map completer_type.observers).getD []).filterMap
        (fun o => if subsPos o then some (Event.on_error (V := Nat) o (some 5)) else none)) := by
  exact on_error_casting_spec subsPos bQ (some 5) bQerr
    [Event.on_error 1 (some 5), Event.unsubscribe_lifetime] (by decide) (by decide)

theorem on_error_noop {V E : Type} (subs : Nat → Bool) (b : binder_type E) (e : Option E)
    (h : b.state.current ≠ mode.Casting) :
    on_error subs b e = (b, ([] : List (Event V E))) := by
  simp [on_error, h]

theorem on_completed_noop {V E : Type} (subs : Nat → Bool) (b : binder_type E)
    (h : b.state.current ≠ mode.Casting) :
    on_completed subs b = (b, ([] : List (Event V E))) := by
  simp [on_completed, h]

/-- C4: mode transitions are one-shot.  In any state whose mode is not Casting,
`on_error` and `on_completed` return the binder entirely unchanged (mode, stored
error, generation, snapshots, lifetime) and deliver no notification, and no
operation whatsoever (`add`, `on_next`, `on_error`, `on_completed`) ever
changes the mode again. -/
theorem terminal_mode_frozen {V E : Type} (b : binder_type E)
    (h : b.state.current ≠ mode.Casting) :
    (∀ (subs : Nat → Bool) (e : Option E), on_error subs b e = (b, ([] : List (Event V E)))) ∧
    (∀ subs : Nat → Bool, on_completed subs b = (b, ([] : List (Event V E)))) ∧
    (∀ (op : Op V E) (r : binder_type E × List (Event V E)),
        step b op = some r → r.1.state.current = b.state.current) := by
  refine ⟨fun subs e => on_error_noop subs b e h, fun subs => on_completed_noop subs b h, ?_⟩
  intro op r hr
  cases op with
  | add subs o => exact add_preserves_mode (by simpa [step] using hr)
  | on_next subs v =>
      simp only [step, Option.some.injEq] at hr
      subst hr
      rw [on_next_state_eq]
  | on_error subs e =>
      simp only [step, Option.some.injEq] at hr
      subst hr
      rw [on_error_noop subs b e h]
  | on_completed subs =>
      simp only [step, Option.some.injEq] at hr
      subst hr
      rw [on_completed_noop subs b h]

/-- C4 witness: `on_error` on the Completed-mode binder `bDone` is a no-op. -/
theorem terminal_mode_frozen_witness :
    on_error subsPos bDone none = (bDone, ([] : List (Event Nat Nat))) := by
  exact (terminal_mode_frozen (V := Nat) bDone (by decide)).1 subsPos none

/-- C7 counterexample: a call to `add` with an already-unsubscribed observer in
Casting mode leaves the generation counter unchanged, so the counter does not
increase strictly on every call to `add`. -/
theorem generation_not_strict_cex :
    step (initial_binder Nat true) (Op.add (fun _ => false) 0 : Op Nat Nat) =
      some (initial_binder Nat true, []) ∧
    (initial_binder Nat true).state.generation = 0 := by
  decide

/-- C7 (amended): exactly the snapshot-publishing calls perform the generation
counter's increment — an `add` in Casting mode of a subscribed observer, and
the Casting-mode termination (`on_error` or `on_completed` while casting) — and
every other call (admission of an unsubscribed observer, admission or
termination after the mode left Casting, and `on_next`) leaves the counter
exactly unchanged.  The source performs the increment on a wrapping machine
integer, so no cross-execution monotonicity of the counter is claimed. -/
theorem generation_step_effect {V E : Type} (b : binder_type E) (op : Op V E)
    (r : binder_type E × List (Event V E)) (h : step b op = some r) :
    ((match op with
      | Op.add subs o => b.state.current = mode.Casting ∧ subs o = true
      | Op.on_next _ _ => False
      | Op.on_error _ _ => b.state.current = mode.Casting
      | Op.on_completed _ => b.state.current = mode.Casting) →
      r.1.state.generation = b.state.generation + 1) ∧
    (¬(match op with
      | Op.add subs o => b.state.current = mode.Casting ∧ subs o = true
      | Op.on_next _ _ => False
      | Op.on_error _ _ => b.state.current = mode.Casting
      | Op.on_completed _ => b.state.current = mode.Casting) →
      r.1.state.generation = b.state.generation) := by
  cases op with
  | add subs o =>
      simp only [step] at h
      constructor
      · rintro ⟨h1, h2⟩
        simp only [add, h1, h2, if_true, Option.some.injEq] at h
        subst h
        rfl
      · intro hn
        cases hm : b.state.current with
        | Invalid => simp [add, hm] at h
        | Casting =>
            by_cases hs : subs o = true
            · exact absurd ⟨hm, hs⟩ hn
            · simp only [add, hm, hs, Bool.false_eq_true, if_false, Option.some.injEq] at h
              subst h
              rfl
        | Completed =>
            simp only [add, hm, Option.some.injEq] at h
            subst h
            rfl
        | Errored =>
            simp only [add, hm, Option.some.injEq] at h
            subst h
            rfl
  | on_next subs v =>
      simp only [step, Option.some.injEq] at h
      subst h
      refine ⟨fun hf => hf.elim, fun _ => ?_⟩
      rw [on_next_state_eq]
  | on_error subs e =>
      simp only [step, Option.some.injEq] at h
      subst h
      constructor
      · intro h1
        simp only [on_error, h1, if_true]
      · intro h1
        rw [on_error_noop subs b e h1]
  | on_completed subs =>
      simp only [step, Option.some.injEq] at h
      subst h
      constructor
      · intro h1
        simp only [on_completed, h1, if_true]
      · intro h1
        rw [on_completed_noop subs b h1]

/-- C7 witness: the Casting-mode termination of the fresh binder performs the
increment, taking the generation counter from 0 to 1. -/
theorem generation_step_effect_witness :
    ((initial_binder Nat true).state.current = mode.Casting →
      bTerm.state.generation = (initial_binder Nat true).state.generation + 1) ∧
    (¬((initial_binder Nat true).state.current = mode.Casting) →
      bTerm.state.generation = (initial_binder Nat true).state.generation) := by
  have h := generation_step_effect (initial_binder Nat true)
    (Op.on_completed subsPos : Op Nat Nat)
    (bTerm, ([Event.unsubscribe_lifetime] : List (Event Nat Nat))) (by decide)
  exact h

theorem add_isSome {V E : Type} {b : binder_type E} (h : b.state.current ≠ mode.Invalid)
    (subs : Nat → Bool) (o : Nat) :
    (add (V := V) subs b o).isSome := by
  cases hm : b.state.current with
  | Invalid => exact absurd hm h
  | Casting => by_cases hs : subs o <;> simp [add, hm, hs]
  | Completed => simp [add, hm]
  | Errored => simp [add, hm]

theorem step_isSome {V E : Type} {b : binder_type E} (h : b.state.current ≠ mode.Invalid)
    (op : Op V E) :
    (step b op).isSome := by
  cases op with
  | add subs o => exact add_isSome h subs o
  | on_next subs v => simp [step]
  | on_error subs e => simp [step]
  | on_completed subs => simp [step]

theorem step_mode_ne_invalid {V E : Type} {b : binder_type E} {op : Op V E}
    {r : binder_type E × List (Event V E)}
    (h : b.state.current ≠ mode.Invalid) (hr : step b op = some r) :
    r.1.state.current ≠ mode.Invalid := by
  cases op with
  | add subs o => rw [add_preserves_mode (by simpa [step] using hr)]; exact h
  | on_next subs v =>
      simp only [step, Option.some.injEq] at hr
      subst hr
      rw [on_next_state_eq]
      exact h
  | on_error subs e =>
      simp only [step, Option.some.injEq] at hr
      subst hr
      by_cases h1 : b.state.current = mode.Casting
      · simp only [on_error, h1, if_true]
        simp
      · rw [on_error_noop subs b e h1]
        exact h
  | on_completed subs =>
      simp only [step, Option.some.injEq] at hr
      subst hr
      by_cases h1 : b.state.current = mode.Casting
      · simp only [on_completed, h1, if_true]
        simp
      · rw [on_completed_noop subs b h1]
        exact h

theorem run_ne_invalid {V E : Type} {b : binder_type E} (h : b.state.current ≠ mode.Invalid)
    (ops : List (Op V E)) :
    ∃ b', run b ops = some b' ∧ b'.state.current ≠ mode.Invalid := by
  induction ops generalizing b with
  | nil => exact ⟨b, rfl, h⟩
  | cons op ops ih =>
      obtain ⟨r, hr⟩ := Option.isSome_iff_exists.mp (step_isSome h op)
      obtain ⟨b', hb, hb2⟩ := ih (step_mode_ne_invalid h hr)
      exact ⟨b', by simp [run, hr, hb], hb2⟩

/-- C10: the `abort()` default branch of `add` is unreachable.  Starting from
the constructed binder, the mode after any sequence of `add`, `on_next`,
`on_error`, `on_completed` calls is always Casting, Completed or Errored —
Invalid is assigned by no operation — so every run of calls executes to
completion without `add` ever taking the aborting default branch. -/
theorem add_abort_unreachable {V E : Type} (ls : Bool) (ops : List (Op V E)) :
    ∃ b', run (initial_binder E ls) ops = some b' ∧
      (b'.state.current = mode.Casting ∨ b'.state.current = mode.Completed ∨
        b'.state.current = mode.Errored) := by
  obtain ⟨b', hb, h2⟩ := run_ne_invalid (b := initial_binder E ls) (by simp [initial_binder]) ops
  refine ⟨b', hb, ?_⟩
  cases hc : b'.state.current with
  | Invalid => exact absurd hc h2
  | Casting => exact Or.inl rfl
  | Completed => exact Or.inr (Or.inl rfl)
  | Errored => exact Or.inr (Or.inr rfl)

end RxSubject
